import Mathlib

/-!
Verification of `papolonio/meta-ads-airflow-pipeline` against its
natural-language specification.

The Python sources `src/utils/graph_api.py` and `src/utils/database.py` are
shallowly embedded below.  HTTP traffic is modelled as a list of responses
consumed in request order (one response per `requests.get` call); pandas
DataFrames are modelled as Lean lists of rows; code that can raise returns
`Except`.  Machine floats appear only as pass-through payload values and are
modelled as exact rationals, since no verified property depends on float
rounding.
-/

set_option maxRecDepth 4000

/-! ## HTTP layer: `GraphAPIClient.paginate_api` (graph_api.py, lines 61-112)

One element of the response list is consumed per `requests.get` call.
`exn` models `requests.exceptions.RequestException` being raised by the call;
`ok status text data next` models a response with the given HTTP status code,
body text, parsed JSON `data` array and optional `paging.next` URL. -/

inductive HttpResponse (α : Type) where
  | ok (status : Nat) (text : String) (data : List α) (next : Option String)
  | exn
  deriving DecidableEq

/-- Does `n` occur at the start of the second list? -/
def listStarts [BEq α] : List α → List α → Bool
  | [], _ => true
  | _ :: _, [] => false
  | a :: as, b :: bs => a == b && listStarts as bs

/-- Substring test (Python `needle in hay`) on lists. -/
def listInf [BEq α] (n : List α) : List α → Bool
  | [] => n.isEmpty
  | h :: t => listStarts n (h :: t) || listInf n t

/-- Code point of the lowercased character.  Python `str.lower` lowercases all
of Unicode; only the ASCII fragment is relevant to the rate-limit phrase. -/
def lowerCode (c : Char) : Nat :=
  let n := c.toNat
  if 65 ≤ n ∧ n ≤ 90 then n + 32 else n

/-- `"too many calls" in response.text.lower()` (graph_api.py line 90). -/
def rate_limit_sig (text : String) : Bool :=
  listInf ("too many calls".data.map Char.toNat) (text.data.map lowerCode)

/-- Result of one `paginate_api` run: the accumulated `data` items, the log of
issued requests as `(request URL, params attached?)` pairs, and the number of
`time.sleep` calls performed on rate-limit retries. -/
structure PaginateResult (α : Type) where
  data : List α
  requests : List (String × Bool)
  sleeps : Nat
  deriving DecidableEq

/-- The `while next_url:` loop of `paginate_api` (graph_api.py lines 78-109).

State: `cur` is `next_url`, `acc` is `all_data`, `reqs`/`sleeps` record the
observable requests and sleeps.  `params=params if next_url == url else None`
is recorded as the Boolean `cur == url` on each request.  A non-200 response
whose body matches the rate-limit signature sleeps and `continue`s with the
same URL; any other non-200 response and any network exception `break`s; a
200 response extends `all_data` and follows `paging.next`, terminating when
it is absent. -/
def paginate_go (url : String) : String → List α → List (String × Bool) → Nat →
    List (HttpResponse α) → PaginateResult α
  | _, acc, reqs, sleeps, [] => ⟨acc, reqs, sleeps⟩
  | cur, acc, reqs, sleeps, r :: rest =>
    let reqs2 := reqs ++ [(cur, cur == url)]
    match r with
    | .exn => ⟨acc, reqs2, sleeps⟩
    | .ok status text dat next =>
      if status ≠ 200 then
        if rate_limit_sig text then
          paginate_go url cur acc reqs2 (sleeps + 1) rest
        else
          ⟨acc, reqs2, sleeps⟩
      else
        match next with
        | none => ⟨acc ++ dat, reqs2, sleeps⟩
        | some n => paginate_go url n (acc ++ dat) reqs2 sleeps rest

/-- `GraphAPIClient.paginate_api(url, params)` run against a fixed finite
response sequence (graph_api.py lines 61-112). -/
def paginate_api (url : String) (responses : List (HttpResponse α)) :
    PaginateResult α :=
  paginate_go url url [] [] 0 responses

/-- One successful intermediate page: HTTP 200 with payload `p.1` and
`paging.next` equal to `p.2`. -/
def mkPage (p : List α × String) : HttpResponse α :=
  .ok 200 "" p.1 (some p.2)

-- scratch checks
example :
    paginate_api "u" [mkPage ([1, 2], "v"), HttpResponse.ok 200 "" [3] none] =
      ⟨[1, 2, 3], [("u", true), ("v", false)], 0⟩ := by decide

example :
    paginate_api "u"
        [HttpResponse.ok 400 "Too Many Calls hit" ([] : List Nat) none,
         HttpResponse.ok 200 "" [5] none] =
      ⟨[5], [("u", true), ("u", true)], 1⟩ := by decide

example :
    paginate_api "u" [mkPage ([1], "v"), HttpResponse.ok 500 "boom" [9] none,
        mkPage ([7], "w")] =
      ⟨[1], [("u", true), ("v", false)], 0⟩ := by decide

/-- The URL the cursor points at after consuming a list of successful pages,
starting from `cur`. -/
def finalCur (cur : String) : List (List α × String) → String
  | [] => cur
  | p :: rest => finalCur p.2 rest

/-- The requests issued while consuming a list of successful pages starting
from `cur`: each request records its URL and whether params were attached. -/
def pageReqs (url cur : String) : List (List α × String) → List (String × Bool)
  | [] => []
  | p :: rest => (cur, cur == url) :: pageReqs url p.2 rest

theorem pageReqs_length (url cur : String) (pages : List (List α × String)) :
    (pageReqs url cur pages).length = pages.length := by
  induction pages generalizing cur with
  | nil => rfl
  | cons p rest ih => simp [pageReqs, ih]

/-- Consuming `pages.map mkPage` prefixes of the response list accumulates
their payloads and requests, then continues at the final cursor. -/
theorem paginate_go_pages (url : String) (rs : List (HttpResponse α))
    (pages : List (List α × String)) :
    ∀ (cur : String) (acc : List α) (reqs : List (String × Bool)) (sleeps : Nat),
      paginate_go url cur acc reqs sleeps (pages.map mkPage ++ rs) =
        paginate_go url (finalCur cur pages) (acc ++ (pages.map Prod.fst).flatten)
          (reqs ++ pageReqs url cur pages) sleeps rs := by
  induction pages with
  | nil => intro cur acc reqs sleeps; simp [finalCur, pageReqs]
  | cons p rest ih =>
    intro cur acc reqs sleeps
    simp only [List.map_cons, List.cons_append, paginate_go, mkPage, List.append_eq]
    rw [if_neg (by simp)]
    rw [ih]
    simp [finalCur, pageReqs, List.flatten]

/-- A response is fatal for `paginate_api` when it is a network-level
exception or a non-200 status whose body does not match the rate-limit
signature (graph_api.py lines 86-95, 107-109). -/
def isFatal : HttpResponse α → Prop
  | .exn => True
  | .ok s t _ _ => s ≠ 200 ∧ rate_limit_sig t = false

/-- C3: a non-200 non-rate-limit response or a network exception terminates
`paginate_api` immediately: the result is exactly the items of the prior
successful pages (any further queued responses are never requested), one
final request is issued for the failing page, and the function returns
normally rather than raising. -/
theorem paginate_fatal_abort (url : String) (pages : List (List α × String))
    (r : HttpResponse α) (rest : List (HttpResponse α)) (hr : isFatal r) :
    (paginate_api url (pages.map mkPage ++ r :: rest)).data =
        (pages.map Prod.fst).flatten ∧
    (paginate_api url (pages.map mkPage ++ r :: rest)).requests.length =
        pages.length + 1 := by
  unfold paginate_api
  rw [paginate_go_pages]
  cases r with
  | exn => simp [paginate_go, pageReqs_length]
  | ok s t dat next =>
    obtain ⟨h1, h2⟩ := hr
    simp [paginate_go, h1, h2, pageReqs_length]

theorem paginate_fatal_abort_witness :
    isFatal (HttpResponse.ok 500 "server error" ([3] : List Nat) (some "w")) ∧
    (paginate_api "u" ([mkPage ([1], "v"), mkPage ([2], "w"),
        HttpResponse.ok 500 "server error" [3] (some "w"), mkPage ([9], "z")])).data
      = [1, 2] := by
  refine ⟨⟨by decide, by decide⟩, ?_⟩
  have h := paginate_fatal_abort "u" [([1], "v"), ([2], "w")]
    (HttpResponse.ok 500 "server error" [3] (some "w")) [mkPage ([9], "z")]
    ⟨by decide, by decide⟩
  simpa using h.1

/-- Consuming successful pages whose `paging.next` URLs all differ from the
initial URL: payloads concatenate in order and exactly the first request
carries params. -/
theorem paginate_go_pages_distinct (url : String) (last : List α)
    (pages : List (List α × String)) (hNe : ∀ p ∈ pages, p.2 ≠ url) :
    ∀ (cur : String) (acc : List α) (reqs : List (String × Bool)) (sleeps : Nat),
      paginate_go url cur acc reqs sleeps
          (pages.map mkPage ++ [HttpResponse.ok 200 "" last none]) =
        ⟨acc ++ ((pages.map Prod.fst).flatten ++ last),
         reqs ++ ((cur, cur == url) :: pages.map (fun p => (p.2, false))), sleeps⟩ := by
  induction pages with
  | nil => intro cur acc reqs sleeps; simp [paginate_go]
  | cons p rest ih =>
    intro cur acc reqs sleeps
    simp only [List.map_cons, List.cons_append, paginate_go, mkPage, List.append_eq]
    rw [if_neg (by simp)]
    have hp : (p.2 == url) = false := by
      have := hNe p (by simp)
      simpa using this
    rw [ih (fun q hq => hNe q (by simp [hq]))]
    simp [hp, List.flatten]

/-- C1 (amended): for N pages each returning HTTP 200 with a data array and a
`paging.next` URL distinct from the initial URL, followed by a page with no
`paging.next`, `paginate_api` returns the concatenation of all pages' data in
page order, issues exactly N+1 requests, and attaches the caller's params
only to the first request.  (Without the distinctness proviso a `paging.next`
equal to the initial URL has params reattached, see the counterexample.) -/
theorem paginate_pagination_termination (url : String)
    (pages : List (List α × String)) (last : List α)
    (hNe : ∀ p ∈ pages, p.2 ≠ url) :
    (paginate_api url (pages.map mkPage ++ [HttpResponse.ok 200 "" last none])).data
        = (pages.map Prod.fst).flatten ++ last ∧
    (paginate_api url (pages.map mkPage ++ [HttpResponse.ok 200 "" last none])).requests.length
        = pages.length + 1 ∧
    (paginate_api url (pages.map mkPage ++ [HttpResponse.ok 200 "" last none])).requests.head?
        = some (url, true) ∧
    ∀ q ∈ (paginate_api url
        (pages.map mkPage ++ [HttpResponse.ok 200 "" last none])).requests.tail,
      q.2 = false := by
  unfold paginate_api
  rw [paginate_go_pages_distinct url last pages hNe]
  refine ⟨by simp, by simp, by simp, ?_⟩
  intro q hq
  simp only [List.nil_append, List.tail_cons] at hq
  obtain ⟨p, _, rfl⟩ := List.mem_map.mp hq
  rfl

theorem paginate_pagination_termination_witness :
    (∀ p ∈ [([1], "p2"), ([2], "p3")], p.2 ≠ "u") ∧
    (paginate_api "u" [mkPage ([1], "p2"), mkPage ([2], "p3"),
        HttpResponse.ok 200 "" [3] none]).data = [1, 2, 3] ∧
    (paginate_api "u" [mkPage ([1], "p2"), mkPage ([2], "p3"),
        HttpResponse.ok 200 "" [3] none]).requests =
      [("u", true), ("p2", false), ("p3", false)] := by
  refine ⟨by decide, ?_, by decide⟩
  have h := paginate_pagination_termination "u" [([1], "p2"), ([2], "p3")] [3]
    (by decide)
  simpa using h.1

/-- C1 counterexample: when a page's `paging.next` equals the initial URL,
the follow-up request reattaches the caller's params (the code tests
`next_url == url`, not "is this the first request"), so the claim's
"params only on the first request" fails as stated. -/
theorem paginate_params_reattached_cex :
    (paginate_api "u" [mkPage ([1], "u"),
        HttpResponse.ok 200 "" ([2] : List Nat) none]).requests
      = [("u", true), ("u", true)] ∧
    ¬ (∀ q ∈ (paginate_api "u" [mkPage ([1], "u"),
        HttpResponse.ok 200 "" ([2] : List Nat) none]).requests.tail,
        q.2 = false) := by
  constructor
  · decide
  · decide

/-- C2: a response with non-200 status whose body matches the rate-limit
signature (case-insensitively) causes one sleep and a retry of the same
request URL, without advancing the cursor and without adding items; this
holds for arbitrarily many consecutive rate-limit responses (no retry cap),
and a rate-limit error followed by success yields exactly 2 requests for the
page with its items included. -/
theorem paginate_rate_limit_retry (url : String) (s : Nat) (t : String)
    (hs : s ≠ 200) (ht : rate_limit_sig t = true) :
    (∀ (dat : List α) (nxt : Option String) (cur : String) (acc : List α)
        (reqs : List (String × Bool)) (sleeps : Nat) (rest : List (HttpResponse α)),
      paginate_go url cur acc reqs sleeps (HttpResponse.ok s t dat nxt :: rest) =
        paginate_go url cur acc (reqs ++ [(cur, cur == url)]) (sleeps + 1) rest) ∧
    (∀ (k : Nat) (rest : List (HttpResponse α)),
      paginate_api url (List.replicate k (HttpResponse.ok s t [] none) ++ rest) =
        paginate_go url url [] (List.replicate k (url, true)) k rest) ∧
    (∀ d : List α,
      paginate_api url [HttpResponse.ok s t [] none, HttpResponse.ok 200 "" d none] =
        ⟨d, [(url, true), (url, true)], 1⟩) := by
  have step : ∀ (dat : List α) (nxt : Option String) (cur : String) (acc : List α)
      (reqs : List (String × Bool)) (sleeps : Nat) (rest : List (HttpResponse α)),
      paginate_go url cur acc reqs sleeps (HttpResponse.ok s t dat nxt :: rest) =
        paginate_go url cur acc (reqs ++ [(cur, cur == url)]) (sleeps + 1) rest := by
    intro dat nxt cur acc reqs sleeps rest
    simp [paginate_go, hs, ht]
  refine ⟨step, ?_, ?_⟩
  · intro k
    induction k with
    | zero => intro rest; simp [paginate_api]
    | succ n ih =>
      intro rest
      have : List.replicate (n + 1) (HttpResponse.ok s t ([] : List α) none) ++ rest =
          List.replicate n (HttpResponse.ok s t [] none) ++
            (HttpResponse.ok s t [] none :: rest) := by
        simp [List.replicate_succ', List.append_assoc]
      rw [this, ih, step]
      simp [List.replicate_succ']
  · intro d
    unfold paginate_api
    rw [step]
    simp [paginate_go]

theorem paginate_rate_limit_retry_witness :
    (400 ≠ 200) ∧ rate_limit_sig "Too Many Calls" = true ∧
    paginate_api "u" [HttpResponse.ok 400 "Too Many Calls" ([] : List Nat) none,
        HttpResponse.ok 200 "" [7] none] =
      ⟨[7], [("u", true), ("u", true)], 1⟩ := by
  refine ⟨by decide, by decide, ?_⟩
  exact (paginate_rate_limit_retry "u" 400 "Too Many Calls"
    (by decide) (by decide)).2.2 [7]

/-! ## MD5 (Python `hashlib.md5`), used by
`GraphAPIDataProcessor.generate_unique_id` (graph_api.py, lines 153-165).

A from-scratch implementation of RFC 1321 over `Nat`, with 32-bit values kept
below `2^32` explicitly. -/

/-- Truncate to 32 bits. -/
def m32 (x : Nat) : Nat := x % 4294967296

/-- Bitwise complement on 32-bit values (valid for `x < 2^32`). -/
def b32not (x : Nat) : Nat := 4294967295 - x

/-- 32-bit left rotation. -/
def rotl32 (x n : Nat) : Nat := m32 (x <<< n) ||| (x >>> (32 - n))

/-- The 64 MD5 sine-derived constants. -/
def md5K : List Nat :=
  [0xd76aa478, 0xe8c7b756, 0x242070db, 0xc1bdceee,
   0xf57c0faf, 0x4787c62a, 0xa8304613, 0xfd469501,
   0x698098d8, 0x8b44f7af, 0xffff5bb1, 0x895cd7be,
   0x6b901122, 0xfd987193, 0xa679438e, 0x49b40821,
   0xf61e2562, 0xc040b340, 0x265e5a51, 0xe9b6c7aa,
   0xd62f105d, 0x02441453, 0xd8a1e681, 0xe7d3fbc8,
   0x21e1cde6, 0xc33707d6, 0xf4d50d87, 0x455a14ed,
   0xa9e3e905, 0xfcefa3f8, 0x676f02d9, 0x8d2a4c8a,
   0xfffa3942, 0x8771f681, 0x6d9d6122, 0xfde5380c,
   0xa4beea44, 0x4bdecfa9, 0xf6bb4b60, 0xbebfbc70,
   0x289b7ec6, 0xeaa127fa, 0xd4ef3085, 0x04881d05,
   0xd9d4d039, 0xe6db99e5, 0x1fa27cf8, 0xc4ac5665,
   0xf4292244, 0x432aff97, 0xab9423a7, 0xfc93a039,
   0x655b59c3, 0x8f0ccc92, 0xffeff47d, 0x85845dd1,
   0x6fa87e4f, 0xfe2ce6e0, 0xa3014314, 0x4e0811a1,
   0xf7537e82, 0xbd3af235, 0x2ad7d2bb, 0xeb86d391]

/-- The 64 per-round left-rotation amounts. -/
def md5S : List Nat :=
  [7, 12, 17, 22, 7, 12, 17, 22, 7, 12, 17, 22, 7, 12, 17, 22,
   5, 9, 14, 20, 5, 9, 14, 20, 5, 9, 14, 20, 5, 9, 14, 20,
   4, 11, 16, 23, 4, 11, 16, 23, 4, 11, 16, 23, 4, 11, 16, 23,
   6, 10, 15, 21, 6, 10, 15, 21, 6, 10, 15, 21, 6, 10, 15, 21]

/-- Round function F/G/H/I, selected by round index. -/
def md5F (i b c d : Nat) : Nat :=
  if i < 16 then (b &&& c) ||| (b32not b &&& d)
  else if i < 32 then (d &&& b) ||| (b32not d &&& c)
  else if i < 48 then b ^^^ c ^^^ d
  else c ^^^ (b ||| b32not d)

/-- Message-word index for round `i`. -/
def md5G (i : Nat) : Nat :=
  if i < 16 then i
  else if i < 32 then (5 * i + 1) % 16
  else if i < 48 then (3 * i + 5) % 16
  else (7 * i) % 16

/-- Little-endian 32-bit word `j` of a 64-byte chunk. -/
def leWord (bytes : List Nat) (j : Nat) : Nat :=
  bytes.getD (4 * j) 0 + 256 * bytes.getD (4 * j + 1) 0 +
    65536 * bytes.getD (4 * j + 2) 0 + 16777216 * bytes.getD (4 * j + 3) 0

/-- One of the 64 MD5 rounds on state `(a, b, c, d)`. -/
def md5Round (bytes : List Nat) (st : Nat × Nat × Nat × Nat) (i : Nat) :
    Nat × Nat × Nat × Nat :=
  let f := m32 (md5F i st.2.1 st.2.2.1 st.2.2.2 + st.1 + md5K.getD i 0 +
    leWord bytes (md5G i))
  (st.2.2.2, m32 (st.2.1 + rotl32 f (md5S.getD i 0)), st.2.1, st.2.2.1)

/-- Process one 64-byte chunk. -/
def md5Chunk (st : Nat × Nat × Nat × Nat) (bytes : List Nat) :
    Nat × Nat × Nat × Nat :=
  let r := (List.range 64).foldl (md5Round bytes) st
  (m32 (st.1 + r.1), m32 (st.2.1 + r.2.1), m32 (st.2.2.1 + r.2.2.1),
    m32 (st.2.2.2 + r.2.2.2))

/-- Eight little-endian bytes of a (mod `2^64`) bit length. -/
def leBytes8 (n : Nat) : List Nat :=
  [n % 256, n / 256 % 256, n / 65536 % 256, n / 16777216 % 256,
   n / 4294967296 % 256, n / 1099511627776 % 256,
   n / 281474976710656 % 256, n / 72057594037927936 % 256]

/-- MD5 padding: `0x80`, zeros to 56 mod 64, then the 64-bit bit length. -/
def md5Pad (msg : List Nat) : List Nat :=
  let len := msg.length
  let padLen := (56 + 64 - (len + 1) % 64) % 64
  msg ++ 0x80 :: List.replicate padLen 0 ++ leBytes8 (8 * len)

/-- Split into 64-byte chunks (fuel-driven; called with fuel = length). -/
def toChunksAux : Nat → List Nat → List (List Nat)
  | 0, _ => []
  | _, [] => []
  | f + 1, l => l.take 64 :: toChunksAux f (l.drop 64)

def toChunks (l : List Nat) : List (List Nat) := toChunksAux l.length l

/-- UTF-8 bytes of one character (Python `str.encode()`). -/
def charUtf8 (c : Char) : List Nat :=
  let n := c.toNat
  if n < 0x80 then [n]
  else if n < 0x800 then [0xc0 + n / 64, 0x80 + n % 64]
  else if n < 0x10000 then
    [0xe0 + n / 4096, 0x80 + n / 64 % 64, 0x80 + n % 64]
  else
    [0xf0 + n / 262144, 0x80 + n / 4096 % 64, 0x80 + n / 64 % 64, 0x80 + n % 64]

/-- UTF-8 encoding of a string as a byte list. -/
def strBytes (s : String) : List Nat := s.data.flatMap charUtf8

/-- Lowercase hex digit. -/
def hexDigit (n : Nat) : Char := "0123456789abcdef".data.getD n '0'

/-- Two lowercase hex digits of a byte. -/
def byteHex (b : Nat) : List Char := [hexDigit (b / 16), hexDigit (b % 16)]

/-- Four little-endian bytes of a 32-bit word. -/
def le4 (w : Nat) : List Nat := [w % 256, w / 256 % 256, w / 65536 % 256, w / 16777216 % 256]

/-- `hashlib.md5(s.encode()).hexdigest()`. -/
def md5Hex (s : String) : String :=
  let msg := strBytes s
  let r := (toChunks (md5Pad msg)).foldl md5Chunk
    (0x67452301, 0xefcdab89, 0x98badcfe, 0x10325476)
  String.mk (([r.1, r.2.1, r.2.2.1, r.2.2.2].flatMap le4).flatMap byteHex)

-- RFC 1321 test vectors
example : md5Hex "" = "d41d8cd98f00b204e9800998ecf8427e" := by decide
example : md5Hex "abc" = "900150983cd24fb0d6963f7d28e17f72" := by decide

deriving instance DecidableEq for Except

/-! ## Data processing: `GraphAPIDataProcessor` (graph_api.py, lines 150-248)

Raw API items are modelled as records of optional fields (absent JSON keys
are `none`, mirroring `item.get(...)`).  The numeric `spend` float is modelled
as an exact rational: no verified property depends on float rounding. -/

structure ActionEntry where
  action_type : Option String := none
  value : Option Int := none
  deriving DecidableEq

structure InsightItem where
  account_name : Option String := none
  adset_id : Option String := none
  adset_name : Option String := none
  ad_id : Option String := none
  ad_name : Option String := none
  campaign_id : Option String := none
  campaign_name : Option String := none
  objective : Option String := none
  spend : Option Rat := none
  clicks : Option Int := none
  inline_link_clicks : Option Int := none
  impressions : Option Int := none
  date_start : Option String := none
  actions : List ActionEntry := []
  deriving DecidableEq

structure CampaignItem where
  id : Option String := none
  name : Option String := none
  status : Option String := none
  start_time : Option String := none
  deriving DecidableEq

/-- One row of `adset_data` (graph_api.py lines 189-204): the dict built from
an insight item, fields in insertion order, with the numeric coercions
`float(item.get('spend', 0))` and `int(item.get(..., 0))`. -/
structure AdsetInfo where
  account_id : String
  account_name : Option String
  adset_id : Option String
  adset_name : Option String
  ad_id : Option String
  ad_name : Option String
  campaign_id : Option String
  campaign_name : Option String
  objective : Option String
  spend : Rat
  clicks : Int
  inline_link_clicks : Int
  impressions : Int
  date : Option String
  deriving DecidableEq

def mkAdsetInfo (accountId : String) (item : InsightItem) : AdsetInfo :=
  { account_id := accountId
    account_name := item.account_name
    adset_id := item.adset_id
    adset_name := item.adset_name
    ad_id := item.ad_id
    ad_name := item.ad_name
    campaign_id := item.campaign_id
    campaign_name := item.campaign_name
    objective := item.objective
    spend := item.spend.getD 0
    clicks := item.clicks.getD 0
    inline_link_clicks := item.inline_link_clicks.getD 0
    impressions := item.impressions.getD 0
    date := item.date_start }

/-- One row of `actions_data` (graph_api.py lines 208-215). -/
structure ActionRow where
  account_id : String
  ad_id : Option String
  action_type : Option String
  value : Int
  date : Option String
  deriving DecidableEq

def mkActionRow (accountId : String) (item : InsightItem) (a : ActionEntry) :
    ActionRow :=
  { account_id := accountId
    ad_id := item.ad_id
    action_type := a.action_type
    value := a.value.getD 0
    date := item.date_start }

/-- One row of `campaigns_data` (graph_api.py lines 222-230). -/
structure CampRow where
  account_id : String
  campaign_id : Option String
  campaign_name : Option String
  campaign_status : Option String
  start_time : Option String
  deriving DecidableEq

def mkCampaignRow (accountId : String) (c : CampaignItem) : CampRow :=
  { account_id := accountId
    campaign_id := c.id
    campaign_name := c.name
    campaign_status := c.status
    start_time := c.start_time }

/-- One row of `df_ads` after the left merge: the adset columns, then the
merged `campaign_status`, then (once computed) `unique_id`. -/
structure AdRow where
  info : AdsetInfo
  campaign_status : Option String
  unique_id : Option String
  deriving DecidableEq

/-- A pandas cell value, as far as `row.astype(str)` is concerned. -/
inductive PyCell where
  | str (v : String)
  | pynone
  | int (n : Int)
  | rat (q : Rat)
  deriving DecidableEq

/-- Decimal digits of `r / d` (`r < d`), stopping when the remainder is 0;
fuel-bounded.  Python floats print their shortest exact decimal; the values
reaching this function have short terminating expansions. -/
def fracDigits : Nat → Nat → Nat → List Char
  | 0, _, _ => []
  | _, 0, _ => []
  | f + 1, r, d =>
    let r10 := r * 10
    "0123456789".data.getD (r10 / d) '0' :: fracDigits f (r10 % d) d

/-- Python `str(float)` for a rational value (e.g. `"0.0"`, `"10.5"`). -/
def ratPyStr (q : Rat) : String :=
  let sign := if q < 0 then "-" else ""
  let a := q.num.natAbs
  let d := q.den
  let frac := if a % d = 0 then "0" else String.mk (fracDigits 30 (a % d) d)
  sign ++ toString (a / d) ++ "." ++ frac

/-- Python `str()` of a cell. -/
def pyStr : PyCell → String
  | .str v => v
  | .pynone => "None"
  | .int n => toString n
  | .rat q => ratPyStr q

def optCell : Option String → PyCell
  | none => .pynone
  | some v => .str v

-- scratch checks for the str(float) rendering
example : ratPyStr (mkRat 21 2) = "10.5" := by decide
example : ratPyStr 0 = "0.0" := by decide
example : ratPyStr (mkRat (-21) 2) = "-10.5" := by decide

/-- `GraphAPIDataProcessor.generate_unique_id` (graph_api.py lines 153-165):
`hashlib.md5("_".join(row.astype(str)).encode()).hexdigest()`. -/
def generate_unique_id (row : List PyCell) : String :=
  md5Hex (String.intercalate "_" (row.map pyStr))

/-- The cells of a `df_ads` row in column order, as seen by
`df_ads.apply(generate_unique_id, axis=1)`. -/
def adRowCells (r : AdRow) : List PyCell :=
  [.str r.info.account_id, optCell r.info.account_name, optCell r.info.adset_id,
   optCell r.info.adset_name, optCell r.info.ad_id, optCell r.info.ad_name,
   optCell r.info.campaign_id, optCell r.info.campaign_name,
   optCell r.info.objective, .rat r.info.spend, .int r.info.clicks,
   .int r.info.inline_link_clicks, .int r.info.impressions,
   optCell r.info.date, optCell r.campaign_status]

/-- The pandas left merge `df_adset.merge(df_campaigns[[...]], on='campaign_id',
how='left')`, restricted to one left row: every matching right row produces an
output row (in right order); no match keeps the row with a null status. -/
def merge_match (campaigns_data : List CampRow) (r : AdsetInfo) : List AdRow :=
  let ms := campaigns_data.filter (fun c => c.campaign_id == r.campaign_id)
  if ms.isEmpty then [{ info := r, campaign_status := none, unique_id := none }]
  else ms.map (fun c =>
    { info := r, campaign_status := c.campaign_status, unique_id := none })

/-- The pandas left merge over all left rows, preserving left order. -/
def merge_left (adset_data : List AdsetInfo) (campaigns_data : List CampRow) :
    List AdRow :=
  adset_data.flatMap (merge_match campaigns_data)

/-- `GraphAPIDataProcessor.process_insights_data` (graph_api.py lines 167-248).

`pd.DataFrame([])` has no columns, so with empty `campaigns` the column
selection `df_campaigns[['campaign_id', 'campaign_status']]` raises KeyError,
and with empty `insights` the merge `df_adset.merge(..., on='campaign_id')`
raises KeyError; both are modelled as `.error`.  The `unique_id` column is
added only when `df_ads` is nonempty. -/
def process_insights_data (insights : List InsightItem)
    (campaigns : List CampaignItem) (accountId : String) :
    Except String (List AdRow × List ActionRow) :=
  let adset_data := insights.map (mkAdsetInfo accountId)
  let actions_data := insights.flatMap
    (fun it => it.actions.map (mkActionRow accountId it))
  let campaigns_data := campaigns.map (mkCampaignRow accountId)
  if campaigns_data.isEmpty then
    .error "KeyError: campaign_id, campaign_status not in columns"
  else if adset_data.isEmpty then
    .error "KeyError: campaign_id"
  else
    let df_ads := merge_left adset_data campaigns_data
    let df_ads2 := if df_ads.isEmpty then df_ads
      else df_ads.map (fun r =>
        { r with unique_id := some (generate_unique_id (adRowCells r)) })
    .ok (df_ads2, actions_data)

-- scratch check: the end-to-end scenario of spec section 8
example :
    (process_insights_data
        [{ campaign_id := some "c1", spend := some (mkRat 21 2),
           clicks := some 3, date_start := some "2024-01-01",
           actions := [{ action_type := some "purchase", value := some 2 }] }]
        [{ id := some "c1", status := some "ACTIVE" }] "acct").map
      (fun p => (p.1.map (fun r => (r.campaign_status, r.info.spend)),
                 p.2.map (fun a => (a.action_type, a.value)))) =
      .ok ([(some "ACTIVE", mkRat 21 2)], [(some "purchase", 2)]) := by
  decide

/-- C5: `generate_unique_id(row)` is the hexadecimal MD5 digest of the string
forms of the row's cells joined by the separator `_` in column order, and is
deterministic: identical string forms give a byte-identical fingerprint. -/
theorem generate_unique_id_fingerprint :
    (∀ row : List PyCell,
        generate_unique_id row = md5Hex (String.intercalate "_" (row.map pyStr))) ∧
    (∀ row row' : List PyCell, row.map pyStr = row'.map pyStr →
        generate_unique_id row = generate_unique_id row') := by
  refine ⟨fun row => rfl, fun row row' h => ?_⟩
  unfold generate_unique_id
  rw [h]

theorem generate_unique_id_fingerprint_witness :
    generate_unique_id [PyCell.str "a", PyCell.int 3] =
      md5Hex (String.intercalate "_" ([PyCell.str "a", PyCell.int 3].map pyStr)) ∧
    generate_unique_id [PyCell.str "3"] = generate_unique_id [PyCell.int 3] :=
  ⟨generate_unique_id_fingerprint.1 [PyCell.str "a", PyCell.int 3],
   generate_unique_id_fingerprint.2 [PyCell.str "3"] [PyCell.int 3] (by decide)⟩

/-- The status the left join attaches to a row with campaign identifier
`cid`: the status of the first campaign whose `id` equals `cid`, null when
none matches. -/
def statusFor (campaigns : List CampaignItem) (cid : Option String) :
    Option String :=
  (campaigns.find? (fun c => c.id == cid)).bind CampaignItem.status

/-- Under pairwise-distinct campaign identifiers, the merge of one left row
yields exactly one output row, with status `statusFor`. -/
theorem merge_match_distinct (accountId : String) (r : AdsetInfo) :
    ∀ (camps : List CampaignItem),
      (camps.map CampaignItem.id).Pairwise (· ≠ ·) →
      merge_match (camps.map (mkCampaignRow accountId)) r =
        [{ info := r, campaign_status := statusFor camps r.campaign_id,
           unique_id := none }] := by
  intro camps
  induction camps with
  | nil => intro _; simp [merge_match, statusFor]
  | cons c rest ih =>
    intro hd
    rw [List.map_cons, List.pairwise_cons] at hd
    by_cases hc : (c.id == r.campaign_id) = true
    · have hceq : c.id = r.campaign_id := by simpa using hc
      have hrest : (rest.map (mkCampaignRow accountId)).filter
          (fun cr => cr.campaign_id == r.campaign_id) = [] := by
        rw [List.filter_eq_nil_iff]
        intro cr hcr
        obtain ⟨c2, hc2, rfl⟩ := List.mem_map.mp hcr
        have hne : c.id ≠ c2.id := hd.1 c2.id (List.mem_map_of_mem _ hc2)
        simp [mkCampaignRow, ← hceq]
        exact fun h => hne h.symm
      simp [merge_match, statusFor, List.filter_cons, mkCampaignRow, hc, hrest]
    · have hcb : (c.id == r.campaign_id) = false := by simpa using hc
      have := ih hd.2
      simp [merge_match, statusFor, List.filter_cons, mkCampaignRow, hcb] at this ⊢
      exact this

theorem flatMap_singleton_eq_map (f : β → γ) (l : List β) :
    (l.flatMap fun a => [f a]) = l.map f := by
  induction l with
  | nil => rfl
  | cons a t ih => simp [List.flatMap_cons, ih]

/-- C6 (amended): for nonempty `insights` and nonempty `campaigns` with
pairwise-distinct campaign identifiers, `process_insights_data` succeeds and
returns exactly one AdRecord row per insight item, in the insertion order of
the input insights; each row's `campaign_status` is the status of the
campaign whose identifier matches the row's `campaign_id`, and rows matching
no campaign are retained with a null status.  (With empty `insights` or empty
`campaigns` the code raises a pandas KeyError instead, and duplicate matching
campaign identifiers multiply rows — see the counterexample.) -/
theorem process_insights_left_join (insights : List InsightItem)
    (campaigns : List CampaignItem) (accountId : String)
    (hIns : insights ≠ []) (hCamp : campaigns ≠ [])
    (hDistinct : (campaigns.map CampaignItem.id).Pairwise (· ≠ ·)) :
    (process_insights_data insights campaigns accountId).map
        (fun p => p.1.map (fun r => (r.info, r.campaign_status))) =
      .ok (insights.map (fun it =>
        (mkAdsetInfo accountId it, statusFor campaigns it.campaign_id))) := by
  unfold process_insights_data
  have hCampE : (campaigns.map (mkCampaignRow accountId)).isEmpty = false := by
    cases campaigns with
    | nil => exact absurd rfl hCamp
    | cons c t => rfl
  have hInsE : (insights.map (mkAdsetInfo accountId)).isEmpty = false := by
    cases insights with
    | nil => exact absurd rfl hIns
    | cons i t => rfl
  simp only [hCampE, hInsE, Bool.false_eq_true, if_false]
  have hmerge : merge_left (insights.map (mkAdsetInfo accountId))
      (campaigns.map (mkCampaignRow accountId)) =
      insights.map (fun it =>
        ({ info := mkAdsetInfo accountId it,
           campaign_status := statusFor campaigns (mkAdsetInfo accountId it).campaign_id,
           unique_id := none } : AdRow)) := by
    unfold merge_left
    rw [List.flatMap_map]
    have : ∀ it : InsightItem,
        merge_match (campaigns.map (mkCampaignRow accountId)) (mkAdsetInfo accountId it) =
          [{ info := mkAdsetInfo accountId it,
             campaign_status := statusFor campaigns (mkAdsetInfo accountId it).campaign_id,
             unique_id := none }] := fun it =>
      merge_match_distinct accountId (mkAdsetInfo accountId it) campaigns hDistinct
    calc insights.flatMap
          (fun it => merge_match (campaigns.map (mkCampaignRow accountId))
            (mkAdsetInfo accountId it))
        = insights.flatMap (fun it =>
            [({ info := mkAdsetInfo accountId it,
                campaign_status := statusFor campaigns (mkAdsetInfo accountId it).campaign_id,
                unique_id := none } : AdRow)]) := by
          exact List.flatMap_congr (fun it _ => this it)
      _ = _ := flatMap_singleton_eq_map _ insights
  rw [hmerge]
  cases insights with
  | nil => exact absurd rfl hIns
  | cons i t =>
    simp [Except.map, mkAdsetInfo, List.map_map, Function.comp]

theorem process_insights_left_join_witness :
    ([{ campaign_id := some "c1" }, { campaign_id := some "zz" }] :
        List InsightItem) ≠ [] ∧
    ([{ id := some "c1", status := some "ACTIVE" },
      { id := some "c2", status := some "PAUSED" }] : List CampaignItem) ≠ [] ∧
    (([{ id := some "c1", status := some "ACTIVE" },
       { id := some "c2", status := some "PAUSED" }] : List CampaignItem).map
        CampaignItem.id).Pairwise (· ≠ ·) ∧
    (process_insights_data
        [{ campaign_id := some "c1" }, { campaign_id := some "zz" }]
        [{ id := some "c1", status := some "ACTIVE" },
         { id := some "c2", status := some "PAUSED" }] "acct").map
      (fun p => p.1.map (fun r => (r.info, r.campaign_status))) =
      .ok [(mkAdsetInfo "acct" { campaign_id := some "c1" }, some "ACTIVE"),
           (mkAdsetInfo "acct" { campaign_id := some "zz" }, none)] := by
  refine ⟨by decide, by decide, by decide, ?_⟩
  have h := process_insights_left_join
    [{ campaign_id := some "c1" }, { campaign_id := some "zz" }]
    [{ id := some "c1", status := some "ACTIVE" },
     { id := some "c2", status := some "PAUSED" }] "acct"
    (by decide) (by decide) (by decide)
  rw [h]
  decide

/-- C6 counterexample: two campaigns sharing the identifier matched by one
insight item make the pandas left merge emit one output row per match, so a
single insight item yields two AdRecord rows, refuting "exactly one row per
insight item" as stated for every list of campaign items. -/
theorem process_insights_row_multiplication_cex :
    (process_insights_data [{ campaign_id := some "c1" }]
        [{ id := some "c1", status := some "A" },
         { id := some "c1", status := some "B" }] "acct").map
      (fun p => p.1.length) = .ok 2 := by decide

/-- C7: on empty insights the code does not return an empty AdRecord set;
the merge of the column-less empty DataFrame raises a pandas KeyError
(modelled as `.error`), even though the empty-set guard for fingerprinting
exists further down. -/
theorem process_insights_empty_raises :
    process_insights_data ([] : List InsightItem)
        [{ id := some "c1", name := some "camp", status := some "ACTIVE" }]
        "acct" = .error "KeyError: campaign_id" := by decide

/-! ## Primary store: `DatabaseManager.upsert_dataframe` (database.py, 84-130)

The table is a list of rows; a row's date is a string (the pipeline stores
ISO `YYYY-MM-DD` dates, on which Python string comparison and SQL date
comparison agree).  String comparison is code-point lexicographic, defined
executably below. -/

/-- Lexicographic less-or-equal on code-point lists. -/
def listLe : List Nat → List Nat → Bool
  | [], _ => true
  | _ :: _, [] => false
  | a :: as, b :: bs => if a < b then true else if b < a then false else listLe as bs

/-- Python `a <= b` on strings (code-point lexicographic). -/
def strLeB (a b : String) : Bool :=
  listLe (a.data.map Char.toNat) (b.data.map Char.toNat)

def strMinB (a b : String) : String := if strLeB a b then a else b

def strMaxB (a b : String) : String := if strLeB a b then b else a

theorem listLe_refl : ∀ l : List Nat, listLe l l = true := by
  intro l
  induction l with
  | nil => rfl
  | cons a as ih => simp [listLe, ih]

theorem listLe_trans : ∀ a b c : List Nat,
    listLe a b = true → listLe b c = true → listLe a c = true := by
  intro a
  induction a with
  | nil => intro b c _ _; rfl
  | cons x as ih =>
    intro b c h1 h2
    cases b with
    | nil => simp [listLe] at h1
    | cons y bs =>
      cases c with
      | nil => simp [listLe] at h2
      | cons z cs =>
        simp only [listLe] at h1 h2 ⊢
        by_cases hxy : x < y
        · by_cases hyz : y < z
          · rw [if_pos (by omega)]
          · simp only [if_neg hyz] at h2
            by_cases hzy : z < y
            · simp [if_pos hzy] at h2
            · rw [if_pos (by omega)]
        · simp only [if_neg hxy] at h1
          by_cases hyx : y < x
          · simp [if_pos hyx] at h1
          · simp only [if_neg hyx] at h1
            by_cases hyz : y < z
            · rw [if_pos (by omega)]
            · simp only [if_neg hyz] at h2
              by_cases hzy : z < y
              · simp [if_pos hzy] at h2
              · simp only [if_neg hzy] at h2
                have hxz : ¬ x < z := by omega
                have hzx : ¬ z < x := by omega
                rw [if_neg hxz, if_neg hzx]
                exact ih bs cs h1 h2

theorem listLe_total : ∀ a b : List Nat, listLe a b = false → listLe b a = true := by
  intro a
  induction a with
  | nil => intro b h; simp [listLe] at h
  | cons x as ih =>
    intro b h
    cases b with
    | nil => rfl
    | cons y bs =>
      simp only [listLe] at h ⊢
      by_cases hxy : x < y
      · simp [if_pos hxy] at h
      · simp only [if_neg hxy] at h
        by_cases hyx : y < x
        · rw [if_pos hyx]
        · simp only [if_neg hyx] at h
          have := ih bs h
          rw [if_neg (by omega), if_neg (by omega)]
          exact this

theorem strLeB_refl (a : String) : strLeB a a = true := listLe_refl _

theorem strLeB_trans {a b c : String} (h1 : strLeB a b = true)
    (h2 : strLeB b c = true) : strLeB a c = true :=
  listLe_trans _ _ _ h1 h2

theorem strLeB_total {a b : String} (h : strLeB a b = false) :
    strLeB b a = true :=
  listLe_total _ _ h

theorem strMinB_le_left (a b : String) : strLeB (strMinB a b) a = true := by
  unfold strMinB
  by_cases h : strLeB a b = true
  · rw [if_pos h]; exact strLeB_refl a
  · rw [if_neg h]; exact strLeB_total (by simpa using h)

theorem strMinB_le_right (a b : String) : strLeB (strMinB a b) b = true := by
  unfold strMinB
  by_cases h : strLeB a b = true
  · rw [if_pos h]; exact h
  · rw [if_neg h]; exact strLeB_refl b

theorem strMaxB_ge_left (a b : String) : strLeB a (strMaxB a b) = true := by
  unfold strMaxB
  by_cases h : strLeB a b = true
  · rw [if_pos h]; exact h
  · rw [if_neg h]; exact strLeB_refl a

theorem strMaxB_ge_right (a b : String) : strLeB b (strMaxB a b) = true := by
  unfold strMaxB
  by_cases h : strLeB a b = true
  · rw [if_pos h]; exact strLeB_refl b
  · rw [if_neg h]; exact strLeB_total (by simpa using h)

theorem foldl_strMinB_le_init (l : List String) :
    ∀ init : String, strLeB (l.foldl strMinB init) init = true := by
  induction l with
  | nil => intro init; exact strLeB_refl init
  | cons a t ih =>
    intro init
    exact strLeB_trans (ih (strMinB init a)) (strMinB_le_left init a)

theorem foldl_strMinB_le_mem (l : List String) :
    ∀ (init : String) (x : String), x ∈ l →
      strLeB (l.foldl strMinB init) x = true := by
  induction l with
  | nil => intro _ x hx; cases hx
  | cons a t ih =>
    intro init x hx
    rcases List.mem_cons.mp hx with rfl | hx
    · exact strLeB_trans (foldl_strMinB_le_init t (strMinB init x))
        (strMinB_le_right init x)
    · exact ih (strMinB init a) x hx

theorem foldl_strMaxB_ge_init (l : List String) :
    ∀ init : String, strLeB init (l.foldl strMaxB init) = true := by
  induction l with
  | nil => intro init; exact strLeB_refl init
  | cons a t ih =>
    intro init
    exact strLeB_trans (strMaxB_ge_left init a) (ih (strMaxB init a))

theorem foldl_strMaxB_ge_mem (l : List String) :
    ∀ (init : String) (x : String), x ∈ l →
      strLeB x (l.foldl strMaxB init) = true := by
  induction l with
  | nil => intro _ x hx; cases hx
  | cons a t ih =>
    intro init x hx
    rcases List.mem_cons.mp hx with rfl | hx
    · exact strLeB_trans (strMaxB_ge_right init x)
        (foldl_strMaxB_ge_init t (strMaxB init x))
    · exact ih (strMaxB init a) x hx

/-- `df[date_column].min()` over a nonempty row list. -/
def dfMin (dateOf : α → String) : List α → String
  | [] => ""
  | d :: rest => (rest.map dateOf).foldl strMinB (dateOf d)

/-- `df[date_column].max()` over a nonempty row list. -/
def dfMax (dateOf : α → String) : List α → String
  | [] => ""
  | d :: rest => (rest.map dateOf).foldl strMaxB (dateOf d)

/-- SQL `dateColumn BETWEEN minD AND maxD` (inclusive on both ends). -/
def inWindow (dateOf : α → String) (minD maxD : String) (r : α) : Bool :=
  strLeB minD (dateOf r) && strLeB (dateOf r) maxD

/-- Observable log events of `upsert_dataframe` (its `print` calls). -/
inductive LogEvent where
  | emptyNothing
  | deleting (minDate maxDate : String)
  | inserting (n : Nat)
  | inserted (n : Nat)
  deriving DecidableEq

structure UpsertResult (α : Type) where
  table : List α
  events : List LogEvent
  deriving DecidableEq

/-- `DatabaseManager.upsert_dataframe(df, table_name, date_column)`
(database.py lines 84-130): empty `df` only logs and returns; otherwise all
table rows with date between the batch min and max (inclusive) are deleted
and the whole batch is appended. -/
def upsert_dataframe (dateOf : α → String) (df table : List α) :
    UpsertResult α :=
  if df.isEmpty then ⟨table, [.emptyNothing]⟩
  else
    let minD := dfMin dateOf df
    let maxD := dfMax dateOf df
    let kept := table.filter (fun r => ! inWindow dateOf minD maxD r)
    ⟨kept ++ df,
     [.deleting minD maxD, .inserting df.length, .inserted df.length]⟩

theorem mem_df_inWindow (dateOf : α → String) (df : List α) (r : α)
    (hr : r ∈ df) :
    inWindow dateOf (dfMin dateOf df) (dfMax dateOf df) r = true := by
  cases df with
  | nil => cases hr
  | cons d rest =>
    unfold inWindow dfMin dfMax
    rcases List.mem_cons.mp hr with rfl | hr
    · rw [foldl_strMinB_le_init, foldl_strMaxB_ge_init]
      rfl
    · rw [foldl_strMinB_le_mem _ _ _ (List.mem_map_of_mem dateOf hr),
        foldl_strMaxB_ge_mem _ _ _ (List.mem_map_of_mem dateOf hr)]
      rfl

/-- C8: `upsert_dataframe` leaves the table unchanged (logging only) when the
batch is empty; otherwise, with `minDate`/`maxDate` the minimum and maximum of
the batch's date column, the resulting table's rows with date in the
inclusive window are exactly the batch rows (no merge-by-key), and rows
outside the window are unchanged. -/
theorem upsert_dataframe_window (dateOf : α → String) (df table : List α) :
    (df = [] → upsert_dataframe dateOf df table = ⟨table, [.emptyNothing]⟩) ∧
    (df ≠ [] →
      (upsert_dataframe dateOf df table).table.filter
          (inWindow dateOf (dfMin dateOf df) (dfMax dateOf df)) = df ∧
      (upsert_dataframe dateOf df table).table.filter
          (fun r => ! inWindow dateOf (dfMin dateOf df) (dfMax dateOf df) r) =
        table.filter
          (fun r => ! inWindow dateOf (dfMin dateOf df) (dfMax dateOf df) r)) := by
  constructor
  · rintro rfl
    simp [upsert_dataframe]
  · intro hne
    have hE : df.isEmpty = false := by
      cases df with
      | nil => exact absurd rfl hne
      | cons a t => rfl
    unfold upsert_dataframe
    rw [hE]
    simp only [Bool.false_eq_true, if_false]
    have hdf : ∀ r ∈ df,
        inWindow dateOf (dfMin dateOf df) (dfMax dateOf df) r = true :=
      fun r hr => mem_df_inWindow dateOf df r hr
    constructor
    · rw [List.filter_append]
      rw [List.filter_eq_self.mpr hdf]
      rw [List.filter_filter]
      have : ∀ r : α,
          (inWindow dateOf (dfMin dateOf df) (dfMax dateOf df) r &&
            ! inWindow dateOf (dfMin dateOf df) (dfMax dateOf df) r) = false := by
        intro r
        cases inWindow dateOf (dfMin dateOf df) (dfMax dateOf df) r <;> rfl
      simp [this]
    · rw [List.filter_append]
      rw [List.filter_filter]
      have h1 : ∀ r : α,
          ((! inWindow dateOf (dfMin dateOf df) (dfMax dateOf df) r) &&
            ! inWindow dateOf (dfMin dateOf df) (dfMax dateOf df) r) =
            ! inWindow dateOf (dfMin dateOf df) (dfMax dateOf df) r := by
        intro r
        cases inWindow dateOf (dfMin dateOf df) (dfMax dateOf df) r <;> rfl
      have h2 : df.filter
          (fun r => ! inWindow dateOf (dfMin dateOf df) (dfMax dateOf df) r) =
          [] := by
        rw [List.filter_eq_nil_iff]
        intro r hr
        rw [hdf r hr]
        simp
      simp only [h1, h2, List.append_nil]

theorem upsert_dataframe_window_witness :
    (upsert_dataframe Prod.fst ([] : List (String × Nat))
        [("2024-01-01", 1), ("2024-01-03", 2), ("2024-01-05", 3)] =
      ⟨[("2024-01-01", 1), ("2024-01-03", 2), ("2024-01-05", 3)],
       [.emptyNothing]⟩) ∧
    ((upsert_dataframe Prod.fst [("2024-01-02", 10), ("2024-01-04", 11)]
        [("2024-01-01", 1), ("2024-01-03", 2), ("2024-01-05", 3)]).table.filter
      (inWindow Prod.fst
        (dfMin Prod.fst [("2024-01-02", 10), ("2024-01-04", 11)])
        (dfMax Prod.fst [("2024-01-02", 10), ("2024-01-04", 11)])) =
      [("2024-01-02", 10), ("2024-01-04", 11)]) ∧
    ((upsert_dataframe Prod.fst [("2024-01-02", 10), ("2024-01-04", 11)]
        [("2024-01-01", 1), ("2024-01-03", 2), ("2024-01-05", 3)]).table.filter
      (fun r => ! inWindow Prod.fst
        (dfMin Prod.fst [("2024-01-02", 10), ("2024-01-04", 11)])
        (dfMax Prod.fst [("2024-01-02", 10), ("2024-01-04", 11)]) r) =
      [("2024-01-01", 1), ("2024-01-03", 2), ("2024-01-05", 3)].filter
        (fun r => ! inWindow Prod.fst
          (dfMin Prod.fst [("2024-01-02", 10), ("2024-01-04", 11)])
          (dfMax Prod.fst [("2024-01-02", 10), ("2024-01-04", 11)]) r)) := by
  refine ⟨(upsert_dataframe_window Prod.fst _ _).1 rfl, ?_, ?_⟩
  · exact ((upsert_dataframe_window Prod.fst _ _).2 (by decide)).1
  · exact ((upsert_dataframe_window Prod.fst _ _).2 (by decide)).2

/-! ## Cross-store sync: `DatabaseManager.sync_postgres_to_sqlserver`
(database.py, lines 132-213)

A row is an association list from column name to (already serialised) cell
value; `_preprocess_dataframe` and the date coercion only normalise cell
values and are modelled as the identity on these opaque strings.  The live
target column list (`_get_sqlserver_columns`, lines 225-234) is a parameter.
The `ThreadPoolExecutor` chunk inserts are modelled sequentially over the
chunk list: chunks are independent and the window is already cleared, so no
result is order-dependent; which chunk inserts raise is an oracle
`fails : Nat → Bool` indexed by chunk position. -/

abbrev PgRow : Type := List (String × String)

/-- The value of a row's date column (`df[date_column]`). -/
def dateOfRow (dateColumn : String) (r : PgRow) : String :=
  (r.lookup dateColumn).getD ""

/-- Fixed-size chunking `[df.iloc[i:i+chunksize] for i in range(0, len(df), chunksize)]`
(fuel-driven; called with fuel = length). -/
def chunkListAux (n : Nat) : Nat → List β → List (List β)
  | 0, _ => []
  | _, [] => []
  | f + 1, l => l.take n :: chunkListAux n f (l.drop n)

def chunkList (n : Nat) (l : List β) : List (List β) :=
  chunkListAux n l.length l

/-- `chunk.to_sql(...)` for one chunk: raises iff the failure oracle says so. -/
def insertChunk (fail : Bool) (chunk : List PgRow) :
    Except String (List PgRow) :=
  if fail then .error "insert error" else .ok chunk

/-- The chunk-insert loop: each chunk's exception is caught inside the loop
body (`try/except` in `insert_chunk`, database.py lines 198-208), counted as
a logged error, and the loop continues with the remaining chunks.  Returns
the successfully inserted rows and the number of caught failures. -/
def runChunks (fails : Nat → Bool) : Nat → List (List PgRow) →
    List PgRow × Nat
  | _, [] => ([], 0)
  | i, c :: rest =>
    let r := runChunks fails (i + 1) rest
    match insertChunk (fails i) c with
    | .ok rows => (rows ++ r.1, r.2)
    | .error _ => (r.1, r.2 + 1)

/-- Number of failing chunk indices among `i, i+1, ..., i+n-1`. -/
def failCount (fails : Nat → Bool) : Nat → Nat → Nat
  | _, 0 => 0
  | i, n + 1 => (if fails i then 1 else 0) + failCount fails (i + 1) n

structure SyncResult where
  table : List PgRow
  chunkErrors : Nat
  noData : Bool
  deriving DecidableEq

/-- `DatabaseManager.sync_postgres_to_sqlserver` (database.py lines 132-213):
read the view rows with date >= startDate, return early when empty, project
each row onto the target's live columns, delete the target window between
startDate and endDate (endDate is "today" at execution time), then insert in
chunks, catching each chunk's insert failure. -/
def sync_postgres_to_sqlserver (view : List PgRow) (targetCols : List String)
    (target : List PgRow) (dateColumn startDate endDate : String)
    (chunksize : Nat) (fails : Nat → Bool) : SyncResult :=
  let df := view.filter (fun r => strLeB startDate (dateOfRow dateColumn r))
  if df.isEmpty then ⟨target, 0, true⟩
  else
    let dfp := df.map (fun r => r.filter (fun kv => targetCols.contains kv.1))
    let kept := target.filter (fun r =>
      ! inWindow (dateOfRow dateColumn) startDate endDate r)
    let r := runChunks fails 0 (chunkList chunksize dfp)
    ⟨kept ++ r.1, r.2, false⟩

-- scratch check: 3 rows, chunk size 1, middle chunk fails
example :
    sync_postgres_to_sqlserver
        [[("date", "2024-01-01"), ("v", "1")],
         [("date", "2024-01-02"), ("v", "2")],
         [("date", "2024-01-03"), ("v", "3")]]
        ["date", "v"]
        [[("date", "2024-01-02"), ("v", "old")]]
        "date" "2024-01-01" "2024-01-31" 1 (fun i => i == 1) =
      ⟨[[("date", "2024-01-01"), ("v", "1")],
        [("date", "2024-01-03"), ("v", "3")]], 1, false⟩ := by
  decide

theorem runChunks_errors (fails : Nat → Bool) :
    ∀ (cs : List (List PgRow)) (i : Nat),
      (runChunks fails i cs).2 = failCount fails i cs.length := by
  intro cs
  induction cs with
  | nil => intro i; rfl
  | cons c rest ih =>
    intro i
    simp only [runChunks, insertChunk, List.length_cons, failCount]
    by_cases h : fails i = true
    · rw [h]
      simp [ih (i + 1), Nat.add_comm]
    · rw [Bool.not_eq_true] at h
      rw [h]
      simp [ih (i + 1)]

theorem runChunks_mem (fails : Nat → Bool) :
    ∀ (cs : List (List PgRow)) (i j : Nat), fails (i + j) = false →
      ∀ r ∈ (cs.getD j []), r ∈ (runChunks fails i cs).1 := by
  intro cs
  induction cs with
  | nil => intro i j _ r hr; simp at hr
  | cons c rest ih =>
    intro i j hf r hr
    cases j with
    | zero =>
      simp only [Nat.add_zero] at hf
      simp only [List.getD, List.get?_cons_zero, Option.getD_some] at hr
      simp only [runChunks, insertChunk, hf, Bool.false_eq_true, if_false]
      exact List.mem_append_left _ hr
    | succ j2 =>
      have hf2 : fails ((i + 1) + j2) = false := by
        have : (i + 1) + j2 = i + (j2 + 1) := by omega
        rw [this]; exact hf
      have hr2 : r ∈ rest.getD j2 [] := by
        simpa [List.getD] using hr
      have hmem := ih (i + 1) j2 hf2 r hr2
      simp only [runChunks, insertChunk]
      by_cases h : fails i = true
      · rw [h]; simpa using hmem
      · rw [Bool.not_eq_true] at h
        rw [h]
        simp only [Bool.false_eq_true, if_false]
        exact List.mem_append_right _ hmem

theorem runChunks_sub (fails : Nat → Bool) :
    ∀ (cs : List (List PgRow)) (i : Nat) (r : PgRow),
      r ∈ (runChunks fails i cs).1 → ∃ c ∈ cs, r ∈ c := by
  intro cs
  induction cs with
  | nil => intro i r hr; simp [runChunks] at hr
  | cons c rest ih =>
    intro i r hr
    simp only [runChunks, insertChunk] at hr
    by_cases h : fails i = true
    · rw [h] at hr
      simp only [if_true] at hr
      obtain ⟨c2, hc2, hrc⟩ := ih (i + 1) r hr
      exact ⟨c2, List.mem_cons_of_mem _ hc2, hrc⟩
    · rw [Bool.not_eq_true] at h
      rw [h] at hr
      simp only [Bool.false_eq_true, if_false] at hr
      rcases List.mem_append.mp hr with hrc | hrr
      · exact ⟨c, List.mem_cons_self _ _, hrc⟩
      · obtain ⟨c2, hc2, hrc⟩ := ih (i + 1) r hrr
        exact ⟨c2, List.mem_cons_of_mem _ hc2, hrc⟩

theorem chunkListAux_sub (n : Nat) :
    ∀ (fuel : Nat) (l : List β) (c : List β), c ∈ chunkListAux n fuel l →
      ∀ r ∈ c, r ∈ l := by
  intro fuel
  induction fuel with
  | zero => intro l c hc; simp [chunkListAux] at hc
  | succ f ih =>
    intro l c hc r hr
    cases l with
    | nil => simp [chunkListAux] at hc
    | cons x t =>
      simp only [chunkListAux] at hc
      rcases List.mem_cons.mp hc with rfl | hc
      · exact List.take_subset n _ hr
      · exact List.drop_subset n _ (ih _ c hc r hr)

theorem chunkList_sub (n : Nat) (l : List β) (c : List β)
    (hc : c ∈ chunkList n l) : ∀ r ∈ c, r ∈ l :=
  chunkListAux_sub n l.length l c hc

/-- C9: every chunk-insert failure in `sync_postgres_to_sqlserver` is caught
and counted per chunk; failures abort neither sibling chunks (every row of a
non-failing chunk is written) nor the overall sync (the method returns a
result for every failure oracle); concretely, with the middle of three
one-row chunks failing, the sync returns normally having written a strict
subset of the window's rows after the target window was already deleted. -/
theorem sync_chunk_failure_tolerance (view : List PgRow)
    (targetCols : List String) (target : List PgRow)
    (dateColumn startDate endDate : String) (chunksize : Nat)
    (fails : Nat → Bool) :
    ((sync_postgres_to_sqlserver view targetCols target dateColumn startDate
        endDate chunksize fails).chunkErrors =
      failCount fails 0 (chunkList chunksize
        ((view.filter (fun r => strLeB startDate (dateOfRow dateColumn r))).map
          (fun r => r.filter (fun kv => targetCols.contains kv.1)))).length) ∧
    (∀ i, fails i = false →
      ∀ r ∈ (chunkList chunksize
          ((view.filter (fun r => strLeB startDate (dateOfRow dateColumn r))).map
            (fun r => r.filter (fun kv => targetCols.contains kv.1)))).getD i [],
        r ∈ (sync_postgres_to_sqlserver view targetCols target dateColumn
          startDate endDate chunksize fails).table) ∧
    (sync_postgres_to_sqlserver
        [[("date", "2024-01-01"), ("v", "1")],
         [("date", "2024-01-02"), ("v", "2")],
         [("date", "2024-01-03"), ("v", "3")]]
        ["date", "v"]
        [[("date", "2024-01-02"), ("v", "old")]]
        "date" "2024-01-01" "2024-01-31" 1 (fun i => i == 1) =
      ⟨[[("date", "2024-01-01"), ("v", "1")],
        [("date", "2024-01-03"), ("v", "3")]], 1, false⟩) := by
  refine ⟨?_, ?_, by decide⟩
  · unfold sync_postgres_to_sqlserver
    by_cases hE : (view.filter
        (fun r => strLeB startDate (dateOfRow dateColumn r))).isEmpty = true
    · rw [if_pos hE]
      have : view.filter (fun r => strLeB startDate (dateOfRow dateColumn r)) = [] :=
        List.isEmpty_iff.mp hE
      rw [this]
      rfl
    · rw [if_neg hE]
      exact runChunks_errors fails _ 0
  · intro i hi r hr
    unfold sync_postgres_to_sqlserver
    by_cases hE : (view.filter
        (fun r => strLeB startDate (dateOfRow dateColumn r))).isEmpty = true
    · rw [List.isEmpty_iff.mp hE] at hr
      simp [chunkList, chunkListAux] at hr
    · rw [if_neg hE]
      have hmem := runChunks_mem fails _ 0 i (by simpa using hi) r hr
      exact List.mem_append_right _ hmem

theorem sync_chunk_failure_tolerance_witness :
    ((fun i => i == 1) 0) = false ∧
    [("date", "2024-01-01"), ("v", "1")] ∈
      (sync_postgres_to_sqlserver
        [[("date", "2024-01-01"), ("v", "1")],
         [("date", "2024-01-02"), ("v", "2")],
         [("date", "2024-01-03"), ("v", "3")]]
        ["date", "v"]
        [[("date", "2024-01-02"), ("v", "old")]]
        "date" "2024-01-01" "2024-01-31" 1 (fun i => i == 1)).table := by
  refine ⟨rfl, ?_⟩
  exact (sync_chunk_failure_tolerance
    [[("date", "2024-01-01"), ("v", "1")],
     [("date", "2024-01-02"), ("v", "2")],
     [("date", "2024-01-03"), ("v", "3")]]
    ["date", "v"]
    [[("date", "2024-01-02"), ("v", "old")]]
    "date" "2024-01-01" "2024-01-31" 1 (fun i => i == 1)).2.1 0 rfl
    [("date", "2024-01-01"), ("v", "1")] (by decide)

/-- Projecting a row keeps exactly the source columns present in the target
column list, in source order. -/
theorem projected_row_cols (cols : List String) :
    ∀ row : PgRow,
      (row.filter (fun kv => cols.contains kv.1)).map Prod.fst =
        (row.map Prod.fst).filter (fun c => cols.contains c) := by
  intro row
  induction row with
  | nil => rfl
  | cons kv t ih =>
    by_cases h : kv.1 ∈ cols
    · simp [List.filter_cons, h]
      simpa using ih
    · simp [List.filter_cons, h]
      simpa using ih

/-- C10: the rows `sync_postgres_to_sqlserver` writes are projected onto
exactly the intersection of the source rows' columns with the target table's
live column list (in source order); the mismatch raises no error, and for
source columns a,b,c and target columns a,c,d exactly a,c are written. -/
theorem sync_column_reconciliation (view : List PgRow) (srcCols : List String)
    (targetCols : List String) (dateColumn startDate endDate : String)
    (chunksize : Nat) (fails : Nat → Bool)
    (hcols : ∀ r ∈ view, r.map Prod.fst = srcCols) :
    (∀ r ∈ (sync_postgres_to_sqlserver view targetCols []
        dateColumn startDate endDate chunksize fails).table,
      r.map Prod.fst = srcCols.filter (fun c => targetCols.contains c)) ∧
    (sync_postgres_to_sqlserver [[("a", "1"), ("b", "2"), ("c", "3")]]
        ["a", "c", "d"] [] "a" "" "9" 1 (fun _ => false) =
      ⟨[[("a", "1"), ("c", "3")]], 0, false⟩) := by
  refine ⟨?_, by decide⟩
  intro r hr
  unfold sync_postgres_to_sqlserver at hr
  by_cases hE : (view.filter
      (fun r => strLeB startDate (dateOfRow dateColumn r))).isEmpty = true
  · rw [if_pos hE] at hr
    simp at hr
  · rw [if_neg hE] at hr
    simp only [List.filter_nil, List.nil_append] at hr
    obtain ⟨c, hc, hrc⟩ := runChunks_sub fails _ 0 r hr
    have hrdfp := chunkList_sub chunksize _ c hc r hrc
    obtain ⟨r0, hr0, rfl⟩ := List.mem_map.mp hrdfp
    have hr0v : r0 ∈ view := List.mem_of_mem_filter hr0
    rw [projected_row_cols targetCols r0, hcols r0 hr0v]

theorem sync_column_reconciliation_witness :
    (∀ r ∈ ([[("a", "1"), ("b", "2"), ("c", "3")]] : List PgRow),
      r.map Prod.fst = ["a", "b", "c"]) ∧
    (∀ r ∈ (sync_postgres_to_sqlserver [[("a", "1"), ("b", "2"), ("c", "3")]]
        ["a", "c", "d"] [] "a" "" "9" 1 (fun _ => false)).table,
      r.map Prod.fst = ["a", "b", "c"].filter
        (fun c => (["a", "c", "d"] : List String).contains c)) := by
  refine ⟨by decide, ?_⟩
  exact (sync_column_reconciliation [[("a", "1"), ("b", "2"), ("c", "3")]]
    ["a", "b", "c"] ["a", "c", "d"] "a" "" "9" 1 (fun _ => false)
    (by decide)).1

/-! ## Per-account pipeline: `extract_meta_ads_data` (graph_api.py, 251-303)

The pipeline paginates insights and campaigns, processes them, and upserts
the two record sets.  Raising an exception is modelled as `.error`; the dates
seen by the upserts are the `date` strings of the processed rows (absent
dates as `""`). -/

structure GraphAPIConfig where
  api_version : String := "v19.0"
  request_timeout : Nat := 30
  rate_limit_sleep : Nat := 60
  data_retention_days : Nat := 15

def insights_url (c : GraphAPIConfig) (accountId : String) : String :=
  "https://graph.facebook.com/" ++ c.api_version ++ "/act_" ++ accountId ++
    "/insights"

def campaigns_url (c : GraphAPIConfig) (accountId : String) : String :=
  "https://graph.facebook.com/" ++ c.api_version ++ "/act_" ++ accountId ++
    "/campaigns"

def adRowDate (r : AdRow) : String := r.info.date.getD ""

def actionRowDate (r : ActionRow) : String := r.date.getD ""

def exceptOk : Except ε β → Bool
  | .ok _ => true
  | .error _ => false

/-- `extract_meta_ads_data(account_id, ...)` (graph_api.py lines 251-303):
fetch insights and campaigns through `paginate_api`, process, then upsert
both DataFrames.  The only code here that can raise is the processing step;
`paginate_api` swallows its errors internally.  Returns the two tables after
the upserts. -/
def extract_meta_ads_data (accountId : String) (config : GraphAPIConfig)
    (insResp : List (HttpResponse InsightItem))
    (campResp : List (HttpResponse CampaignItem))
    (adsTable : List AdRow) (actionsTable : List ActionRow) :
    Except String (List AdRow × List ActionRow) :=
  let insights := (paginate_api (insights_url config accountId) insResp).data
  let campaigns := (paginate_api (campaigns_url config accountId) campResp).data
  match process_insights_data insights campaigns accountId with
  | .error e => .error e
  | .ok p =>
    .ok ((upsert_dataframe adRowDate p.1 adsTable).table,
         (upsert_dataframe actionRowDate p.2 actionsTable).table)

theorem process_insights_ok_of_ne (insights : List InsightItem)
    (campaigns : List CampaignItem) (accountId : String)
    (h1 : insights ≠ []) (h2 : campaigns ≠ []) :
    exceptOk (process_insights_data insights campaigns accountId) = true := by
  unfold process_insights_data
  have hc : (campaigns.map (mkCampaignRow accountId)).isEmpty = false := by
    cases campaigns with
    | nil => exact absurd rfl h2
    | cons c t => rfl
  have hi : (insights.map (mkAdsetInfo accountId)).isEmpty = false := by
    cases insights with
    | nil => exact absurd rfl h1
    | cons i t => rfl
  simp [hc, hi, exceptOk]

/-- Fatal response sequence for the insights endpoint: one good page, then an
HTTP 500. -/
def fatalInsResp : List (HttpResponse InsightItem) :=
  [HttpResponse.ok 200 ""
     [{ ad_id := some "ad1", campaign_id := some "c1",
        date_start := some "2024-01-01" }] (some "next2"),
   HttpResponse.ok 500 "Internal Server Error" [] none]

def oneCampResp : List (HttpResponse CampaignItem) :=
  [HttpResponse.ok 200 "" [{ id := some "c1", status := some "ACTIVE" }] none]

/-- C4 counterexample: a fatal API error (HTTP 500 on the insights page 2) is
consumed during the account's extraction, yet `extract_meta_ads_data` returns
normally: `paginate_api` catches the error and returns the partial page, so
nothing is raised to the orchestrator. -/
theorem extract_fatal_no_raise_cex :
    (paginate_api (insights_url {} "acct") fatalInsResp).requests.length = 2 ∧
    isFatal (HttpResponse.ok 500 "Internal Server Error"
      ([] : List InsightItem) none) ∧
    exceptOk (extract_meta_ads_data "acct" {} fatalInsResp oneCampResp [] [])
      = true := by
  refine ⟨by decide, ⟨by decide, by decide⟩, by decide⟩

/-- C4 (amended): when a fatal API error occurs during an account's
extraction, `paginate_api` swallows it and returns the accumulated items;
whenever the resulting insights and campaigns lists are nonempty (e.g. the
error struck after the first page), `extract_meta_ads_data` completes
normally with the partial data and raises nothing to its caller, so the
orchestrator cannot mark the unit failed.  (Only when the failure leaves the
insights or campaigns list empty does a processing KeyError escape.) -/
theorem extract_no_raise_on_fatal (accountId : String) (config : GraphAPIConfig)
    (insResp : List (HttpResponse InsightItem))
    (campResp : List (HttpResponse CampaignItem))
    (adsTable : List AdRow) (actionsTable : List ActionRow)
    (hIns : (paginate_api (insights_url config accountId) insResp).data ≠ [])
    (hCamp : (paginate_api (campaigns_url config accountId) campResp).data ≠ []) :
    exceptOk (extract_meta_ads_data accountId config insResp campResp
      adsTable actionsTable) = true := by
  unfold extract_meta_ads_data
  have hok := process_insights_ok_of_ne _ _ accountId hIns hCamp
  cases hp : process_insights_data
      (paginate_api (insights_url config accountId) insResp).data
      (paginate_api (campaigns_url config accountId) campResp).data
      accountId with
  | error e => rw [hp] at hok; exact absurd hok (by simp [exceptOk])
  | ok p => simp [hp, exceptOk]

/-- Fatal-by-exception insights sequence: one good page, then a raised
`requests` exception. -/
def exnInsResp : List (HttpResponse InsightItem) :=
  [HttpResponse.ok 200 ""
     [{ ad_id := some "ad9", campaign_id := some "c1",
        date_start := some "2024-01-02" }] (some "next2"),
   HttpResponse.exn]

theorem extract_no_raise_on_fatal_witness :
    (paginate_api (insights_url {} "acct2") exnInsResp).data ≠ [] ∧
    (paginate_api (campaigns_url {} "acct2") oneCampResp).data ≠ [] ∧
    exceptOk (extract_meta_ads_data "acct2" {} exnInsResp oneCampResp [] [])
      = true := by
  refine ⟨by decide, by decide, ?_⟩
  exact extract_no_raise_on_fatal "acct2" {} exnInsResp oneCampResp [] []
    (by decide) (by decide)
